import Mathlib

/-!
Shallow embedding of the go-tarantool connection-pool / failover layer
(`ConnectionMulti` of package `multi`), the stream / transaction wire
codec (`stream.go`), and the msgpack leading-byte classifiers
(`msgpack.go`), together with theorems settling the specification claims.

Modelling conventions:
* A Go `*tarantool.Connection` is a `Connection` record; the `ref` field
  stands for the pointer identity of the Go object, so Go pointer
  equality is Lean equality of `Connection` values (distinct objects get
  distinct `ref`s).
* Go `map[string]*Connection` is an association list with unique keys,
  accessed only through `getConnectionFromPool` / `setConnectionToPool`
  / `deleteConnectionFromPool`, mirroring the three guarded accessors of
  the source.
* Dialing (`tarantool.Connect`) is an oracle `dial : String → Option
  Connection`: `some c` models a non-nil connection with `err == nil`,
  `none` models a failed dial.
* Functions that in Go perform network sends return a symbolic action
  (`.viaBound`, `.send`, …) instead; an error future is a distinct
  constructor, so "no network access" is structural.
* `time.Duration` is `Int` (nanoseconds); `Duration.Seconds()` is exact
  rational division by 10^9 (the float64 rounding of Go is not modelled,
  only which value is encoded).
-/

namespace TarantoolSpec

/-- Model of a Go `*tarantool.Connection`. `ref` models the pointer
identity; `closeErr` is the error `Close()` would report for this
connection (`none` = closes cleanly). -/
structure Connection where
  ref : Nat
  addr : String
  connectedNow : Bool
  closedNow : Bool
  closeErr : Option String
deriving DecidableEq, Repr

/-! ## Wire codec helpers (`msgpack.go`) -/

/-- msgpack marker byte `Uint8` (0xcc), from the vendored
`msgpack.v2/codes` package. -/
def mpUint8 : Nat := 0xcc

/-- msgpack marker byte `Uint16` (0xcd). -/
def mpUint16 : Nat := 0xcd

/-- msgpack marker byte `Uint32` (0xce). -/
def mpUint32 : Nat := 0xce

/-- msgpack marker byte `Uint64` (0xcf). -/
def mpUint64 : Nat := 0xcf

/-- `codes.PosFixedNumHigh` (0x7f): highest positive-fixint byte. -/
def mpPosFixedNumHigh : Nat := 0x7f

/-- `codes.NegFixedNumLow` (0xe0): lowest negative-fixint byte. -/
def mpNegFixedNumLow : Nat := 0xe0

/-- `codes.IsFixedNum` of the vendored `msgpack.v2/codes` package:
true for positive fixints (≤ 0x7f) and for negative fixints (≥ 0xe0). -/
def mpIsFixedNum (c : Nat) : Bool :=
  c ≤ mpPosFixedNumHigh || mpNegFixedNumLow ≤ c

/-- `msgpackIsUint` from `msgpack.go`. -/
def msgpackIsUint (code : Nat) : Bool :=
  code == mpUint8 || code == mpUint16 ||
  code == mpUint32 || code == mpUint64 ||
  mpIsFixedNum code

/-- Written from the spec's words, for comparison with `msgpackIsUint`:
the leading bytes of msgpack *unsigned*-integer encodings are exactly
the positive fixints (0x00–0x7f) and the Uint8/16/32/64 markers
(0xcc–0xcf); negative fixints (0xe0–0xff) begin signed values. -/
def specIsUintLeadByte (b : Nat) : Bool :=
  b ≤ 0x7f || (0xcc ≤ b && b ≤ 0xcf)

/-! ## Transaction control codec (`stream.go`) -/

/-- `TxnIsolationLevel` is a Go `uint`; `DefaultIsolationLevel = 0`. -/
def DefaultIsolationLevel : Nat := 0

/-- Modelled from the spec: the fixed protocol key under which a Begin
timeout is encoded ("timeout key present iff timeout>0").  The numeric
constant `KeyTimeout` lives in a source file outside `src/`; its value
is irrelevant to the claims, only its fixedness matters. -/
def KeyTimeout : Nat := 0x56

/-- Modelled from the spec: the fixed protocol key under which the Begin
isolation level is encoded ("Isolation level is encoded as an unsigned
integer under a fixed key").  The numeric constant `KeyTxnIsolation`
lives in a source file outside `src/`. -/
def KeyTxnIsolation : Nat := 0x59

/-- One item emitted into the msgpack encoder: a map-length header, an
unsigned integer (`encodeUint` / `enc.Encode` of a uint), or the
floating-point seconds value (`enc.Encode(timeout.Seconds())`, held as
the exact rational it denotes). -/
inductive MpItem where
  | mapLen (n : Nat)
  | uint (v : Nat)
  | float (v : Rat)
deriving DecidableEq, Repr

/-- `timeout.Seconds()` for a `time.Duration` of `d` nanoseconds, as an
exact rational. -/
def durationSeconds (d : Int) : Rat := (d : Rat) / 1000000000

/-- `fillBegin` from `stream.go`: the body of a Begin request, as the
list of items written to the encoder (the encoder of the model cannot
fail, so the error plumbing of the source is dropped). -/
def fillBegin (txnIsolation : Nat) (timeout : Int) : List MpItem :=
  let hasTimeout := 0 < timeout
  let hasIsolationLevel := txnIsolation ≠ DefaultIsolationLevel
  let mapLen := (if hasTimeout then 1 else 0) + (if hasIsolationLevel then 1 else 0)
  MpItem.mapLen mapLen ::
    ((if hasTimeout then
        [MpItem.uint KeyTimeout, MpItem.float (durationSeconds timeout)]
      else []) ++
     (if hasIsolationLevel then
        [MpItem.uint KeyTxnIsolation, MpItem.uint txnIsolation]
      else []))

/-- `fillCommit` from `stream.go`: always an empty map. -/
def fillCommit : List MpItem := [MpItem.mapLen 0]

/-- `fillRollback` from `stream.go`: always an empty map. -/
def fillRollback : List MpItem := [MpItem.mapLen 0]

/-! ## Requests and streams -/

/-- A request: `plain n` is a request that is not a `ConnectedRequest`
(`n` is an opaque payload tag); `connected n c` is a `ConnectedRequest`
whose `Conn()` is `c`. -/
inductive Request where
  | plain (n : Nat)
  | connected (n : Nat) (c : Connection)
deriving DecidableEq, Repr

/-- The bound connection of a request: `some (Conn())` when the request
implements `ConnectedRequest`, else `none` (the type switch of the
source). -/
def Request.boundConn : Request → Option Connection
  | .plain _ => none
  | .connected _ c => some c

/-- `Stream` from `stream.go`: a server-issued id and a fixed back
reference to its issuing connection. -/
structure Stream where
  Id : Nat
  Conn : Connection
deriving DecidableEq, Repr

/-- Result of `Stream.Do`: either the error future produced for a
binding mismatch (no network access), or the call
`s.Conn.send(req, s.Id)`. -/
inductive StreamDoResult where
  | errorFuture
  | send (c : Connection) (req : Request) (streamId : Nat)
deriving DecidableEq, Repr

/-- `Stream.Do` from `stream.go`: a `ConnectedRequest` bound to a
connection other than the stream's own (pointer comparison
`connectedReq.Conn() != s.Conn`) gets an error future; every other
request is forwarded to `s.Conn.send(req, s.Id)`. -/
def Stream.Do (s : Stream) (req : Request) : StreamDoResult :=
  match req.boundConn with
  | some bc => if bc ≠ s.Conn then .errorFuture else .send s.Conn req s.Id
  | none => .send s.Conn req s.Id

/-! ## Connection pool (`package multi`) -/

/-- `indexOf` from the multi package, with the running index made
explicit. -/
def indexOfAux (sstring : String) : Nat → List String → Int
  | _, [] => -1
  | i, v :: rest => if sstring = v then (i : Int) else indexOfAux sstring (i + 1) rest

/-- `indexOf` from the multi package: index of the first occurrence, or
`-1` when absent. -/
def indexOf (sstring : String) (data : List String) : Int :=
  indexOfAux sstring 0 data

/-- The Go `map[string]*tarantool.Connection` of the pool, as an
association list with unique keys. -/
abbrev Pool := List (String × Connection)

/-- `ConnectionMulti`: tracked address list, address-keyed pool,
fallback slot, atomic state word (`connConnected = 0`, `connClosed =
1`), and whether the `control` channel has been closed. -/
structure ConnectionMulti where
  addrs : List String
  pool : Pool
  fallback : Option Connection
  state : Nat
  controlClosed : Bool
deriving DecidableEq, Repr

/-- `connConnected` constant of the multi package. -/
def connConnected : Nat := 0

/-- `connClosed` constant of the multi package. -/
def connClosed : Nat := 1

/-- `getConnectionFromPool`: map lookup (`conn, ok := pool[addr]`),
`none` standing for `ok == false`. -/
def getConnectionFromPool : Pool → String → Option Connection
  | [], _ => none
  | (k, c) :: rest, addr => if k = addr then some c else getConnectionFromPool rest addr

/-- `setConnectionToPool`: map store `pool[addr] = conn`. -/
def setConnectionToPool : Pool → String → Connection → Pool
  | [], addr, conn => [(addr, conn)]
  | (k, c) :: rest, addr, conn =>
    if k = addr then (addr, conn) :: rest else (k, c) :: setConnectionToPool rest addr conn

/-- `deleteConnectionFromPool`: map erase `delete(pool, addr)`. -/
def deleteConnectionFromPool (pool : Pool) (addr : String) : Pool :=
  pool.filter (fun kv => kv.1 ≠ addr)

/-- The loop body of `getCurrentConnection`, scanning the tracked
addresses with the mutable `fallback` threaded through; returns the
connection the function returns together with the fallback slot as left
by the scan (at the end of the list the source returns the — possibly
updated — fallback). -/
def getCurrentGo (pool : Pool) : List String → Option Connection →
    Option Connection × Option Connection
  | [], fb => (fb, fb)
  | addr :: rest, fb =>
    match getConnectionFromPool pool addr with
    | some conn =>
      if conn.connectedNow then (some conn, fb)
      else getCurrentGo pool rest (some conn)
    | none => getCurrentGo pool rest fb

/-- `getCurrentConnection` of the multi package: first component is the
returned connection, second the fallback slot after the call. -/
def ConnectionMulti.getCurrentConnection (cm : ConnectionMulti) :
    Option Connection × Option Connection :=
  getCurrentGo cm.pool cm.addrs cm.fallback

/-- Result of `ConnectionMulti.Do`: the error future built for a
request whose bound address is not in the pool (no network access),
`connectedReq.Conn().Do(req)` for a tracked bound request, or
`getCurrentConnection().Do(req)` for a plain request. -/
inductive MultiDoResult where
  | errorFuture
  | viaBound (c : Connection)
  | viaCurrent (c : Option Connection)
deriving DecidableEq, Repr

/-- `ConnectionMulti.Do`: a `ConnectedRequest` is admitted iff the
*address* of its bound connection is a key of the pool map
(`getConnectionFromPool(connectedReq.Conn().Addr())`); when admitted it
is sent on the bound connection itself. -/
def ConnectionMulti.Do (cm : ConnectionMulti) (req : Request) : MultiDoResult :=
  match req.boundConn with
  | some bc =>
    match getConnectionFromPool cm.pool bc.addr with
    | none => .errorFuture
    | some _ => .viaBound bc
  | none => .viaCurrent cm.getCurrentConnection.1

/-- The error-aggregating close loop of `Close()` over the pool map:
`if err == nil { err = conn.Close() } else { conn.Close() }`. -/
def closeLoop : Pool → Option String → Option String
  | [], err => err
  | (_, conn) :: rest, err =>
    match err with
    | none => closeLoop rest conn.closeErr
    | some e => closeLoop rest (some e)

/-- The state, returned error and close log produced by a `Close()`
that did not panic. -/
structure CloseOk where
  state : ConnectionMulti
  err : Option String
  closedConns : List Connection
deriving DecidableEq, Repr

/-- The body of `Close()` once `close(control)` succeeded: mark the
state closed, close every pool connection keeping only the first error,
then close the fallback with its error discarded.  `closedConns` is the
order in which `Close()` was invoked on owned connections. -/
def closeCore (cm : ConnectionMulti) : CloseOk :=
  { state := { cm with controlClosed := true, state := connClosed }
    err := closeLoop cm.pool none
    closedConns := cm.pool.map (fun kv => kv.2) ++
      (match cm.fallback with | some f => [f] | none => []) }

/-- Outcome of `Close()`: in Go, `close` of an already-closed channel
panics, so a second `Close()` panics at `close(connMulti.control)`. -/
inductive CloseOutcome where
  | panicked
  | ok (r : CloseOk)
deriving DecidableEq, Repr

/-- `ConnectionMulti.Close`. -/
def ConnectionMulti.Close (cm : ConnectionMulti) : CloseOutcome :=
  if cm.controlClosed then .panicked else .ok (closeCore cm)

/-- The returned `err` of a non-panicking `Close()`. -/
def CloseOutcome.retErr : CloseOutcome → Option (Option String)
  | .panicked => none
  | .ok r => some r.err

/-- `warmUp` of the multi package: dial every address in order; a
successful dial is recorded in the pool, the first success fills the
fallback, and `somebodyAlive` is set when a dialed connection reports
`ConnectedNow()`.  Arguments after the address list thread the mutable
`fallback`, `pool` and `somebodyAlive`. -/
def warmUpGo (dial : String → Option Connection) :
    List String → Option Connection → Pool → Bool →
    Option Connection × Pool × Bool
  | [], fb, pool, alive => (fb, pool, alive)
  | addr :: rest, fb, pool, alive =>
    match dial addr with
    | some conn =>
      warmUpGo dial rest
        (match fb with | none => some conn | some f => some f)
        (setConnectionToPool pool addr conn)
        (alive || conn.connectedNow)
    | none => warmUpGo dial rest fb pool alive

/-- Errors returned by `ConnectWithOpts` of the multi package. -/
inductive GoErr where
  | errEmptyAddrs
  | errWrongCheckTimeout
  | errNoConnection
deriving DecidableEq, Repr

/-- The spec's `ConfigError` class (§7): `ErrEmptyAddrs` and
`ErrWrongCheckTimeout`, but not `ErrNoConnection`. -/
def isConfigError : GoErr → Bool
  | .errEmptyAddrs => true
  | .errWrongCheckTimeout => true
  | .errNoConnection => false

/-- Result of construction. -/
inductive ConnectResult where
  | err (e : GoErr)
  | ok (cm : ConnectionMulti)
deriving DecidableEq, Repr

/-- Everything observable about one run of `ConnectWithOpts`: its
result, the connections produced by dials during warm-up (`opened`),
and the connections on which `Close()` was invoked before returning
(`closed`). -/
structure ConnectOutcome where
  result : ConnectResult
  opened : List Connection
  closed : List Connection
deriving DecidableEq, Repr

/-- `ConnectWithOpts` of the multi package (`checkTimeout` is the
`opts.CheckTimeout` duration in nanoseconds): validate the
configuration before any dial, warm up, and on a dead warm-up close the
partially built pool via `Close()` and fail with `ErrNoConnection`.
The background checker task is started only on success and is modelled
separately (`refreshTick`). -/
def ConnectWithOpts (dial : String → Option Connection) (addrs : List String)
    (checkTimeout : Int) : ConnectOutcome :=
  if addrs.length = 0 then
    { result := .err .errEmptyAddrs, opened := [], closed := [] }
  else if checkTimeout ≤ 0 then
    { result := .err .errWrongCheckTimeout, opened := [], closed := [] }
  else
    let w := warmUpGo dial addrs none [] false
    let cm : ConnectionMulti :=
      { addrs := addrs, pool := w.2.1, fallback := w.1,
        state := connConnected, controlClosed := false }
    let opened := addrs.filterMap dial
    if w.2.2 = false then
      { result := .err .errNoConnection, opened := opened,
        closed := (closeCore cm).closedConns }
    else
      { result := .ok cm, opened := opened, closed := [] }

/-- The "fill pool with new connections" phase of the discovery tick:
for every address of the new list absent from the tracked list, dial;
install on success. -/
def fillNewConns (dial : String → Option Connection) (oldAddrs : List String) :
    List String → Pool → Pool
  | [], pool => pool
  | v :: rest, pool =>
    if indexOf v oldAddrs < 0 then
      match dial v with
      | some conn => fillNewConns dial oldAddrs rest (setConnectionToPool pool v conn)
      | none => fillNewConns dial oldAddrs rest pool
    else fillNewConns dial oldAddrs rest pool

/-- The "clear pool from obsolete connections" phase: for every tracked
address absent from the new list, close its pool entry (when present)
and erase the key.  Second component: the connections closed, in
order. -/
def clearObsolete (newAddrs : List String) :
    List String → Pool → Pool × List Connection
  | [], pool => (pool, [])
  | v :: rest, pool =>
    if indexOf v newAddrs < 0 then
      match getConnectionFromPool pool v with
      | some con =>
        let r := clearObsolete newAddrs rest (deleteConnectionFromPool pool v)
        (r.1, con :: r.2)
      | none => clearObsolete newAddrs rest (deleteConnectionFromPool pool v)
    else clearObsolete newAddrs rest pool

/-- One serviced discovery tick of `checker` (the `refreshTimer` arm),
given the decoded reply `resp` of the discovery call: when `len(resp) >
0 && len(resp[0]) > 0`, fill the pool with connections for new
addresses, clear obsolete ones, and replace the tracked list; any other
shape changes nothing.  Second component: the connections closed by the
tick. -/
def refreshTick (dial : String → Option Connection) (cm : ConnectionMulti)
    (resp : List (List String)) : ConnectionMulti × List Connection :=
  match resp with
  | [] => (cm, [])
  | l :: _ =>
    if 0 < l.length then
      let pool1 := fillNewConns dial cm.addrs l cm.pool
      let r := clearObsolete l cm.addrs pool1
      ({ cm with pool := r.1, addrs := l }, r.2)
    else (cm, [])

/-! ## Spec-side selector descriptions (for the selection claim) -/

/-- Written from the spec's words ("return the first entry reporting
connected-now", scanning tracked addresses in configured order): the
first pool entry of the scan that is connected now. -/
def specFirstConnected (pool : Pool) : List String → Option Connection
  | [] => none
  | a :: rest =>
    match getConnectionFromPool pool a with
    | some c => if c.connectedNow then some c else specFirstConnected pool rest
    | none => specFirstConnected pool rest

/-- Written from the spec's words ("update fallback to the last
inspected non-null entry"): scan the whole address list and keep the
last non-null pool entry, starting from the current fallback. -/
def specFallbackScan (pool : Pool) (addrs : List String) (fb0 : Option Connection) :
    Option Connection :=
  addrs.foldl
    (fun acc a =>
      match getConnectionFromPool pool a with
      | some c => some c
      | none => acc) fb0

/-! ## Concrete instances for witnesses and counterexamples -/

/-- A healthy connection at address "A". -/
def exConnA : Connection := ⟨1, "A", true, false, none⟩

/-- A *different* connection object that also reports address "A". -/
def exConnA2 : Connection := ⟨2, "A", true, false, none⟩

/-- A non-connected connection at address "B". -/
def exConnB : Connection := ⟨3, "B", false, false, none⟩

/-- A dialed-but-dead connection at address "a". -/
def exConnDead : Connection := ⟨4, "a", false, true, none⟩

/-- A connection whose `Close()` fails. -/
def exConnBoom : Connection := ⟨5, "F", false, false, some "boom"⟩

/-- A pool tracking address "A" with entry `exConnA`. -/
def exCM1 : ConnectionMulti :=
  { addrs := ["A"], pool := [("A", exConnA)], fallback := some exConnA,
    state := connConnected, controlClosed := false }

/-- Pool state for the discovery-tick counterexample. -/
def exCM3 : ConnectionMulti :=
  { addrs := ["A"], pool := [("A", exConnA)], fallback := some exConnA,
    state := connConnected, controlClosed := false }

/-- Dial oracle that always fails. -/
def exDialNone : String → Option Connection := fun _ => none

/-- Dial oracle that always yields the dead connection `exConnDead`. -/
def exDialDead : String → Option Connection := fun _ => some exConnDead

/-- Dial oracle yielding a fresh healthy connection for address "C". -/
def exDialC : String → Option Connection :=
  fun a => if a = "C" then some ⟨6, "C", true, false, none⟩ else none

/-- Pool for the Close claims: one tracked connection that closes
cleanly, one that fails to close, and a distinct fallback whose close
fails. -/
def exCM5 : ConnectionMulti :=
  { addrs := ["A", "F"], pool := [("A", exConnA), ("F", exConnBoom)],
    fallback := some exConnA, state := connConnected, controlClosed := false }

/-- Pool whose only tracked connection closes cleanly while the
fallback's close fails: exhibits the discarded fallback error. -/
def cxCM5 : ConnectionMulti :=
  { addrs := ["A"], pool := [("A", exConnA)], fallback := some exConnBoom,
    state := connConnected, controlClosed := false }

/-- Pool state with two tracked addresses for the selection and
discovery witnesses: "A" connected, "B" present but not connected. -/
def exCM4 : ConnectionMulti :=
  { addrs := ["A", "B"], pool := [("A", exConnA), ("B", exConnB)],
    fallback := none, state := connConnected, controlClosed := false }

/-- Pool state where no tracked entry is connected now. -/
def exCM4b : ConnectionMulti :=
  { addrs := ["B"], pool := [("B", exConnB)], fallback := some exConnA,
    state := connConnected, controlClosed := false }

/-- The stream used by the stream-binding witness. -/
def exStream : Stream := ⟨7, exConnA⟩

/-! ## Helper lemmas -/

theorem indexOfAux_lt_zero_iff (a : String) :
    ∀ (l : List String) (i : Nat), indexOfAux a i l < 0 ↔ a ∉ l := by
  intro l
  induction l with
  | nil => intro i; simp [indexOfAux]
  | cons v rest ih =>
    intro i
    by_cases hv : a = v
    · subst hv
      simp [indexOfAux]
    · simp [indexOfAux, hv, ih (i + 1)]

theorem indexOf_lt_zero_iff (a : String) (l : List String) :
    indexOf a l < 0 ↔ a ∉ l := indexOfAux_lt_zero_iff a l 0

theorem closeLoop_some (e : String) :
    ∀ (p : Pool), closeLoop p (some e) = some e := by
  intro p
  induction p with
  | nil => rfl
  | cons kv rest ih => simpa [closeLoop] using ih

theorem closeLoop_none_eq_head :
    ∀ (p : Pool),
      closeLoop p none = ((p.map (fun kv => kv.2)).filterMap Connection.closeErr).head? := by
  intro p
  induction p with
  | nil => rfl
  | cons kv rest ih =>
    obtain ⟨k, c⟩ := kv
    cases hc : c.closeErr with
    | none => simpa [closeLoop, hc] using ih
    | some e => simp [closeLoop, hc, closeLoop_some]

theorem getConnectionFromPool_set :
    ∀ (p : Pool) (a : String) (c : Connection) (b : String),
      getConnectionFromPool (setConnectionToPool p a c) b =
        if a = b then some c else getConnectionFromPool p b := by
  intro p
  induction p with
  | nil =>
    intro a c b
    by_cases hab : a = b <;> simp [setConnectionToPool, getConnectionFromPool, hab]
  | cons kv rest ih =>
    intro a c b
    obtain ⟨k, v⟩ := kv
    by_cases hk : k = a
    · subst hk
      by_cases hab : k = b <;>
        simp [setConnectionToPool, getConnectionFromPool, hab]
    · by_cases hkb : k = b
      · subst hkb
        have hab : ¬(a = k) := fun h => hk h.symm
        simp [setConnectionToPool, getConnectionFromPool, hk, hab]
      · simp [setConnectionToPool, getConnectionFromPool, hk, hkb, ih]

theorem getConnectionFromPool_delete :
    ∀ (p : Pool) (a : String) (b : String),
      getConnectionFromPool (deleteConnectionFromPool p a) b =
        if a = b then none else getConnectionFromPool p b := by
  intro p
  induction p with
  | nil =>
    intro a b
    by_cases hab : a = b <;> simp [deleteConnectionFromPool, getConnectionFromPool, hab]
  | cons kv rest ih =>
    intro a b
    obtain ⟨k, v⟩ := kv
    by_cases hk : k = a
    · subst hk
      by_cases hab : k = b <;>
        simpa [deleteConnectionFromPool, getConnectionFromPool, hab] using ih k b
    · by_cases hkb : k = b
      · subst hkb
        have hab : ¬(a = k) := fun h => hk h.symm
        simp [deleteConnectionFromPool, getConnectionFromPool, hk, hab]
      · simpa [deleteConnectionFromPool, getConnectionFromPool, hk, hkb] using ih a b

theorem mem_values_of_lookup :
    ∀ (p : Pool) (a : String) (c : Connection),
      getConnectionFromPool p a = some c → c ∈ p.map (fun kv => kv.2) := by
  intro p
  induction p with
  | nil => intro a c h; simp [getConnectionFromPool] at h
  | cons kv rest ih =>
    intro a c h
    obtain ⟨k, v⟩ := kv
    by_cases hk : k = a
    · simp [getConnectionFromPool, hk] at h
      simp [h]
    · simp only [getConnectionFromPool, hk, if_false] at h
      simp [ih a c h]

theorem getConnectionFromPool_fillNewConns (dial : String → Option Connection)
    (oldAddrs : List String) :
    ∀ (l : List String) (pool : Pool) (a : String),
      getConnectionFromPool (fillNewConns dial oldAddrs l pool) a =
        if a ∈ l ∧ indexOf a oldAddrs < 0 then
          (dial a).or (getConnectionFromPool pool a)
        else getConnectionFromPool pool a := by
  intro l
  induction l with
  | nil => intro pool a; simp [fillNewConns]
  | cons v rest ih =>
    intro pool a
    by_cases hv : indexOf v oldAddrs < 0
    · cases hd : dial v with
      | some conn =>
        simp only [fillNewConns, if_pos hv, hd]
        rw [ih, getConnectionFromPool_set]
        by_cases hav : a = v
        · subst hav
          by_cases har : a ∈ rest
          · simp [har, hv, hd, Option.or]
          · simp [har, hv, hd, Option.or]
        · have hva : ¬(v = a) := fun h => hav h.symm
          by_cases har : a ∈ rest
          · simp [har, hav, hva]
          · simp [har, hav, hva]
      | none =>
        simp only [fillNewConns, if_pos hv, hd]
        rw [ih]
        by_cases hav : a = v
        · subst hav
          by_cases har : a ∈ rest
          · simp [har, hv, hd, Option.or]
          · simp [har, hv, hd, Option.or]
        · by_cases har : a ∈ rest
          · simp [har, hav]
          · simp [har, hav]
    · simp only [fillNewConns, if_neg hv]
      rw [ih]
      by_cases hav : a = v
      · subst hav
        by_cases har : a ∈ rest
        · simp [har, hv]
        · simp [har, hv]
      · by_cases har : a ∈ rest
        · simp [har, hav]
        · simp [har, hav]

theorem clearObsolete_fst_cons (newAddrs : List String) (v : String)
    (rest : List String) (pool : Pool) :
    (clearObsolete newAddrs (v :: rest) pool).1 =
      if indexOf v newAddrs < 0 then
        (clearObsolete newAddrs rest (deleteConnectionFromPool pool v)).1
      else (clearObsolete newAddrs rest pool).1 := by
  by_cases hv : indexOf v newAddrs < 0
  · cases hc : getConnectionFromPool pool v <;> simp [clearObsolete, hv, hc]
  · simp [clearObsolete, hv]

theorem getConnectionFromPool_clearObsolete (newAddrs : List String) :
    ∀ (victims : List String) (pool : Pool) (a : String),
      getConnectionFromPool (clearObsolete newAddrs victims pool).1 a =
        if a ∈ victims ∧ indexOf a newAddrs < 0 then none
        else getConnectionFromPool pool a := by
  intro victims
  induction victims with
  | nil => intro pool a; simp [clearObsolete]
  | cons v rest ih =>
    intro pool a
    rw [clearObsolete_fst_cons]
    by_cases hv : indexOf v newAddrs < 0
    · rw [if_pos hv, ih, getConnectionFromPool_delete]
      by_cases hav : a = v
      · subst hav
        by_cases har : a ∈ rest
        · simp [har, hv]
        · simp [har, hv]
      · have hva : ¬(v = a) := fun h => hav h.symm
        by_cases har : a ∈ rest
        · simp [har, hav, hva]
        · simp [har, hav, hva]
    · rw [if_neg hv, ih]
      by_cases hav : a = v
      · subst hav
        by_cases har : a ∈ rest
        · simp [har, hv]
        · simp [har, hv]
      · by_cases har : a ∈ rest
        · simp [har, hav]
        · simp [har, hav]

theorem clearObsolete_snd_congr (newAddrs : List String) :
    ∀ (victims : List String) (p q : Pool),
      (∀ w ∈ victims, getConnectionFromPool p w = getConnectionFromPool q w) →
      (clearObsolete newAddrs victims p).2 = (clearObsolete newAddrs victims q).2 := by
  intro victims
  induction victims with
  | nil => intro p q h; simp [clearObsolete]
  | cons v rest ih =>
    intro p q h
    have hv0 : getConnectionFromPool p v = getConnectionFromPool q v :=
      h v (List.mem_cons_self v rest)
    have hrest : ∀ w ∈ rest,
        getConnectionFromPool (deleteConnectionFromPool p v) w =
          getConnectionFromPool (deleteConnectionFromPool q v) w := by
      intro w hw
      rw [getConnectionFromPool_delete, getConnectionFromPool_delete]
      by_cases hvw : v = w
      · simp [hvw]
      · simp [hvw, h w (List.mem_cons_of_mem v hw)]
    by_cases hv : indexOf v newAddrs < 0
    · cases hc : getConnectionFromPool p v with
      | some con =>
        simp [clearObsolete, hv, hc, hv0 ▸ hc, ih _ _ hrest]
      | none =>
        simp [clearObsolete, hv, hc, hv0 ▸ hc, ih _ _ hrest]
    · simp [clearObsolete, hv, ih _ _ (fun w hw => h w (List.mem_cons_of_mem v hw))]

theorem clearObsolete_snd_eq (newAddrs : List String) :
    ∀ (victims : List String) (pool : Pool), victims.Nodup →
      (clearObsolete newAddrs victims pool).2 =
        victims.filterMap (fun v =>
          if indexOf v newAddrs < 0 then getConnectionFromPool pool v else none) := by
  intro victims
  induction victims with
  | nil => intro pool _; simp [clearObsolete]
  | cons v rest ih =>
    intro pool hnd
    have hvrest : v ∉ rest := (List.nodup_cons.mp hnd).1
    have hndrest : rest.Nodup := (List.nodup_cons.mp hnd).2
    have hdel : ∀ w ∈ rest,
        getConnectionFromPool (deleteConnectionFromPool pool v) w =
          getConnectionFromPool pool w := by
      intro w hw
      rw [getConnectionFromPool_delete]
      have hvw : ¬(v = w) := fun h => hvrest (h ▸ hw)
      simp [hvw]
    by_cases hv : indexOf v newAddrs < 0
    · cases hc : getConnectionFromPool pool v with
      | some con =>
        simp only [clearObsolete, if_pos hv, hc]
        rw [clearObsolete_snd_congr newAddrs rest _ _ hdel, ih pool hndrest]
        simp [hv, hc]
      | none =>
        simp only [clearObsolete, if_pos hv, hc]
        rw [clearObsolete_snd_congr newAddrs rest _ _ hdel, ih pool hndrest]
        simp [hv, hc]
    · simp only [clearObsolete, if_neg hv]
      rw [ih pool hndrest]
      simp [hv]

theorem warmUpGo_pool_lookup (dial : String → Option Connection) :
    ∀ (l : List String) (fb : Option Connection) (pool : Pool) (alive : Bool)
      (a : String),
      getConnectionFromPool (warmUpGo dial l fb pool alive).2.1 a =
        if a ∈ l ∧ (dial a).isSome then dial a
        else getConnectionFromPool pool a := by
  intro l
  induction l with
  | nil => intro fb pool alive a; simp [warmUpGo]
  | cons v rest ih =>
    intro fb pool alive a
    cases hd : dial v with
    | some conn =>
      simp only [warmUpGo, hd]
      rw [ih, getConnectionFromPool_set]
      by_cases hav : a = v
      · subst hav
        by_cases har : a ∈ rest
        · simp [har, hd]
        · simp [har, hd]
      · have hva : ¬(v = a) := fun h => hav h.symm
        by_cases har : a ∈ rest
        · simp [har, hav, hva]
        · simp [har, hav, hva]
    | none =>
      simp only [warmUpGo, hd]
      rw [ih]
      by_cases hav : a = v
      · subst hav
        by_cases har : a ∈ rest
        · simp [har, hd]
        · simp [har, hd]
      · by_cases har : a ∈ rest
        · simp [har, hav]
        · simp [har, hav]

theorem warmUpGo_alive_of_dead (dial : String → Option Connection)
    (hdead : ∀ a c, dial a = some c → c.connectedNow = false) :
    ∀ (l : List String) (fb : Option Connection) (pool : Pool),
      (warmUpGo dial l fb pool false).2.2 = false := by
  intro l
  induction l with
  | nil => intro fb pool; rfl
  | cons v rest ih =>
    intro fb pool
    cases hd : dial v with
    | some conn =>
      have hc : conn.connectedNow = false := hdead v conn hd
      simp only [warmUpGo, hd, hc, Bool.or_false]
      exact ih _ _
    | none =>
      simp only [warmUpGo, hd]
      exact ih _ _

theorem getCurrentGo_first_connected (pool : Pool) :
    ∀ (l : List String) (fb : Option Connection) (c : Connection),
      specFirstConnected pool l = some c →
      (getCurrentGo pool l fb).1 = some c := by
  intro l
  induction l with
  | nil => intro fb c h; simp [specFirstConnected] at h
  | cons a rest ih =>
    intro fb c h
    cases hl : getConnectionFromPool pool a with
    | some c0 =>
      by_cases hc : c0.connectedNow
      · simp only [specFirstConnected, hl, if_pos hc] at h
        simp only [getCurrentGo, hl, if_pos hc]
        exact congrArg Option.some (Option.some.inj h)
      · simp only [specFirstConnected, hl, if_neg hc] at h
        simp only [getCurrentGo, hl, if_neg hc]
        exact ih _ c h
    | none =>
      simp only [specFirstConnected, hl] at h
      simp only [getCurrentGo, hl]
      exact ih fb c h

theorem getCurrentGo_no_connected (pool : Pool) :
    ∀ (l : List String) (fb : Option Connection),
      specFirstConnected pool l = none →
      getCurrentGo pool l fb =
        (specFallbackScan pool l fb, specFallbackScan pool l fb) := by
  intro l
  induction l with
  | nil => intro fb _; simp [getCurrentGo, specFallbackScan]
  | cons a rest ih =>
    intro fb h
    cases hl : getConnectionFromPool pool a with
    | some c0 =>
      by_cases hc : c0.connectedNow
      · simp [specFirstConnected, hl, if_pos hc] at h
      · simp only [specFirstConnected, hl, if_neg hc] at h
        simp only [getCurrentGo, hl, if_neg hc, specFallbackScan, List.foldl_cons]
        exact ih (some c0) h
    | none =>
      simp only [specFirstConnected, hl] at h
      simp only [getCurrentGo, hl, specFallbackScan, List.foldl_cons]
      exact ih fb h

/-! ## Claim theorems -/

/-- C2: for every isolation level and timeout, the Begin body is a map
whose length is in `{0,1,2}`: the timeout key is present (with the
floating-point seconds value) iff the timeout is positive, the
isolation key is present (with the level as an unsigned integer) iff
the level differs from the default; the four combinations give exactly
the empty, the two one-entry, and the two-entry bodies. -/
theorem fillBegin_conditional_omission (i : Nat) (t : Int) :
    (i = DefaultIsolationLevel → t ≤ 0 → fillBegin i t = [MpItem.mapLen 0]) ∧
    (i = DefaultIsolationLevel → 0 < t → fillBegin i t =
      [MpItem.mapLen 1, MpItem.uint KeyTimeout, MpItem.float (durationSeconds t)]) ∧
    (i ≠ DefaultIsolationLevel → t ≤ 0 → fillBegin i t =
      [MpItem.mapLen 1, MpItem.uint KeyTxnIsolation, MpItem.uint i]) ∧
    (i ≠ DefaultIsolationLevel → 0 < t → fillBegin i t =
      [MpItem.mapLen 2, MpItem.uint KeyTimeout, MpItem.float (durationSeconds t),
       MpItem.uint KeyTxnIsolation, MpItem.uint i]) := by
  refine ⟨fun h1 h2 => ?_, fun h1 h2 => ?_, fun h1 h2 => ?_, fun h1 h2 => ?_⟩ <;>
    simp [fillBegin, h1, h2, not_lt.mpr h2]

/-- Witness for C2 at the four concrete shapes. -/
theorem fillBegin_conditional_omission_witness :
    fillBegin 0 0 = [MpItem.mapLen 0] ∧
    fillBegin 3 0 = [MpItem.mapLen 1, MpItem.uint KeyTxnIsolation, MpItem.uint 3] ∧
    fillBegin 0 2000000000 =
      [MpItem.mapLen 1, MpItem.uint KeyTimeout, MpItem.float (durationSeconds 2000000000)] ∧
    fillBegin 1 2000000000 =
      [MpItem.mapLen 2, MpItem.uint KeyTimeout, MpItem.float (durationSeconds 2000000000),
       MpItem.uint KeyTxnIsolation, MpItem.uint 1] :=
  ⟨(fillBegin_conditional_omission 0 0).1 rfl (by decide),
   (fillBegin_conditional_omission 3 0).2.2.1 (by decide) (by decide),
   (fillBegin_conditional_omission 0 2000000000).2.1 rfl (by decide),
   (fillBegin_conditional_omission 1 2000000000).2.2.2 (by decide) (by decide)⟩

/-- C8: `Stream.Do` fails immediately with the binding-mismatch error
future (no network call) when the request's bound connection differs
from the stream's connection, and otherwise forwards the request to the
stream's connection's send primitive tagged with the stream id. -/
theorem stream_do_binding (s : Stream) (req : Request) :
    (∀ bc, req.boundConn = some bc → bc ≠ s.Conn →
      s.Do req = StreamDoResult.errorFuture) ∧
    ((∀ bc, req.boundConn = some bc → bc = s.Conn) →
      s.Do req = StreamDoResult.send s.Conn req s.Id) := by
  constructor
  · intro bc hb hne
    cases req with
    | plain n => simp [Request.boundConn] at hb
    | connected n c =>
      simp only [Request.boundConn, Option.some.injEq] at hb
      subst hb
      simp [Stream.Do, Request.boundConn, hne]
  · intro h
    cases req with
    | plain n => rfl
    | connected n c =>
      have hc : c = s.Conn := h c rfl
      simp [Stream.Do, Request.boundConn, hc]

/-- Witness for C8: a request bound to a foreign connection is
rejected; a request bound to the stream's own connection is sent with
the stream id. -/
theorem stream_do_binding_witness :
    exStream.Do (Request.connected 0 exConnB) = StreamDoResult.errorFuture ∧
    exStream.Do (Request.connected 1 exConnA) =
      StreamDoResult.send exStream.Conn (Request.connected 1 exConnA) exStream.Id :=
  ⟨(stream_do_binding exStream (Request.connected 0 exConnB)).1 exConnB rfl (by decide),
   (stream_do_binding exStream (Request.connected 1 exConnA)).2
     (fun bc hb => (Option.some.inj hb).symm)⟩

/-- C9 counterexample: `0xe0` is the leading byte of a msgpack
*negative* fixint (it encodes −32), yet `msgpackIsUint` classifies it
as unsigned, refuting "returns false for every byte that begins a
signed/negative integer encoding". -/
theorem msgpackIsUint_counterexample :
    msgpackIsUint 0xe0 = true ∧ specIsUintLeadByte 0xe0 = false := by decide

set_option maxRecDepth 8000 in
/-- C9 (amended): over all byte values, `msgpackIsUint` returns true
exactly on the unsigned leading bytes (positive fixints and the
Uint8/16/32/64 markers) *plus* the negative fixints `0xe0`–`0xff`,
which begin signed negative values. -/
theorem msgpackIsUint_characterization :
    ∀ b : Fin 256,
      msgpackIsUint b.val =
        (specIsUintLeadByte b.val || decide (0xe0 ≤ b.val)) := by decide

/-- C10: `Close()` is not idempotent: whenever a first `Close()`
returned normally, calling `Close()` on the resulting pool panics (Go
panics on closing the already-closed `control` channel). -/
theorem close_second_call_panics (cm : ConnectionMulti) (r : CloseOk)
    (h : cm.Close = CloseOutcome.ok r) :
    r.state.Close = CloseOutcome.panicked := by
  by_cases hc : cm.controlClosed = true
  · simp [ConnectionMulti.Close, hc] at h
  · simp only [ConnectionMulti.Close, hc, if_false, Bool.false_eq_true,
      CloseOutcome.ok.injEq] at h
    rw [← h]
    simp [ConnectionMulti.Close, closeCore]

set_option maxRecDepth 4000 in
/-- Witness for C10 on a concrete pool. -/
theorem close_second_call_panics_witness :
    (closeCore exCM1).state.Close = CloseOutcome.panicked :=
  close_second_call_panics exCM1 (closeCore exCM1) rfl

/-- C1 counterexample: a request bound to `exConnA2` — a connection
object that is *not* the pool's entry, merely sharing address "A" with
the tracked entry `exConnA` — is routed (sent on `exConnA2` itself)
instead of failing with the binding-mismatch error, because `Do` checks
only the bound connection's address against the pool keys. -/
theorem multi_do_exact_binding_counterexample :
    exCM1.Do (Request.connected 0 exConnA2) = MultiDoResult.viaBound exConnA2 ∧
    (∀ kv ∈ exCM1.pool, kv.2 ≠ exConnA2) := by decide

/-- C1 (amended): `ConnectionMulti.Do` admits a pre-bound request iff
the *address* of its bound connection is presently a key of the pool
map; when admitted the request is sent on the bound connection object
itself (even if the pool's entry for that address is a different
connection), and otherwise `Do` fails immediately with the
binding-mismatch error future and performs no network access. -/
theorem multi_do_routing (cm : ConnectionMulti) (n : Nat) (bc : Connection) :
    (getConnectionFromPool cm.pool bc.addr = none →
      cm.Do (Request.connected n bc) = MultiDoResult.errorFuture) ∧
    (∀ c, getConnectionFromPool cm.pool bc.addr = some c →
      cm.Do (Request.connected n bc) = MultiDoResult.viaBound bc) := by
  constructor
  · intro h
    simp [ConnectionMulti.Do, Request.boundConn, h]
  · intro c h
    simp [ConnectionMulti.Do, Request.boundConn, h]

/-- Witness for C1 (amended): an untracked address is rejected, a
tracked address is routed to the bound object. -/
theorem multi_do_routing_witness :
    exCM1.Do (Request.connected 2 exConnB) = MultiDoResult.errorFuture ∧
    exCM1.Do (Request.connected 3 exConnA) = MultiDoResult.viaBound exConnA :=
  ⟨(multi_do_routing exCM1 2 exConnB).1 rfl,
   (multi_do_routing exCM1 3 exConnA).2 exConnA rfl⟩

/-- C4: the current-connection selection scans the tracked addresses in
configured order and returns the first entry reporting connected-now;
when no entry is connected-now it returns the fallback slot, which has
been updated to the last inspected non-null entry (kept at its old
value when every inspected entry was null).  The function takes no dial
oracle, so it cannot block or reconnect. -/
theorem getCurrentConnection_selection (cm : ConnectionMulti) :
    (∀ c, specFirstConnected cm.pool cm.addrs = some c →
      cm.getCurrentConnection.1 = some c) ∧
    (specFirstConnected cm.pool cm.addrs = none →
      cm.getCurrentConnection.1 = cm.getCurrentConnection.2 ∧
      cm.getCurrentConnection.2 = specFallbackScan cm.pool cm.addrs cm.fallback) := by
  constructor
  · intro c h
    exact getCurrentGo_first_connected cm.pool cm.addrs cm.fallback c h
  · intro h
    have := getCurrentGo_no_connected cm.pool cm.addrs cm.fallback h
    unfold ConnectionMulti.getCurrentConnection
    rw [this]
    exact ⟨rfl, rfl⟩

/-- Witness for C4: with "A" connected the scan returns `exConnA`; with
only the non-connected "B" tracked the scan returns the fallback slot,
now holding `exConnB`, the last non-null inspected entry. -/
theorem getCurrentConnection_selection_witness :
    exCM4.getCurrentConnection.1 = some exConnA ∧
    (exCM4b.getCurrentConnection.1 = exCM4b.getCurrentConnection.2 ∧
     exCM4b.getCurrentConnection.2 =
       specFallbackScan exCM4b.pool exCM4b.addrs exCM4b.fallback) :=
  ⟨(getCurrentConnection_selection exCM4).1 exConnA (by decide),
   (getCurrentConnection_selection exCM4b).2 (by decide)⟩

/-- C5 counterexample: on `cxCM5` the only tracked connection closes
cleanly while the fallback's close fails with "boom"; `Close()`
nevertheless returns nil (`some none` = returned without panicking,
with a nil error), refuting "returns the first error encountered while
closing any owned resource (nil only if every owned resource, including
the fallback, closed without error)". -/
theorem close_fallback_error_counterexample :
    cxCM5.Close.retErr = some none ∧
    cxCM5.fallback = some exConnBoom ∧
    exConnBoom.closeErr = some "boom" := by decide

/-- C5 (amended): the first `Close()` marks the state closed, signals
the maintenance task to stop (the control channel becomes closed),
attempts to close every tracked connection and the fallback even if an
earlier close fails, and returns the first error encountered while
closing the *tracked* connections; the error of the fallback's own
close is discarded, so nil can be returned even if closing the fallback
fails. -/
theorem close_first_call_spec (cm : ConnectionMulti)
    (h : cm.controlClosed = false) :
    cm.Close = CloseOutcome.ok
      { state := { cm with controlClosed := true, state := connClosed }
        err := ((cm.pool.map (fun kv => kv.2)).filterMap Connection.closeErr).head?
        closedConns := cm.pool.map (fun kv => kv.2) ++
          (match cm.fallback with | some f => [f] | none => []) } := by
  simp only [ConnectionMulti.Close, h, Bool.false_eq_true, if_false,
    CloseOutcome.ok.injEq, closeCore]
  rw [closeLoop_none_eq_head]

/-- Witness for C5 (amended) on `exCM5`: the returned error is the
close error of the second tracked connection, the state is closed, and
every owned connection (both tracked ones and the fallback) was
closed. -/
theorem close_first_call_spec_witness :
    exCM5.Close = CloseOutcome.ok
      { state := { exCM5 with controlClosed := true, state := connClosed }
        err := some "boom"
        closedConns := [exConnA, exConnBoom, exConnA] } := by
  rw [close_first_call_spec exCM5 rfl]; rfl

/-- C6: when the address list is non-empty and valid but every dial
during warm-up fails to produce a live (connected-now) connection,
construction fails with `ErrNoConnection`, returns no pool, and every
connection opened during warm-up is closed before returning. -/
theorem connect_all_unreachable (dial : String → Option Connection)
    (addrs : List String) (t : Int)
    (hne : addrs ≠ []) (ht : 0 < t)
    (hdead : ∀ a c, dial a = some c → c.connectedNow = false) :
    (ConnectWithOpts dial addrs t).result = ConnectResult.err GoErr.errNoConnection ∧
    ∀ c ∈ (ConnectWithOpts dial addrs t).opened,
      c ∈ (ConnectWithOpts dial addrs t).closed := by
  have hlen : ¬(addrs.length = 0) := by simp [List.length_eq_zero, hne]
  have ht' : ¬(t ≤ 0) := not_le.mpr ht
  have halive : (warmUpGo dial addrs none [] false).2.2 = false :=
    warmUpGo_alive_of_dead dial hdead addrs none []
  constructor
  · simp [ConnectWithOpts, hlen, ht', halive]
  · intro c hc
    simp only [ConnectWithOpts, hlen, ht', halive, if_false, if_true, ite_true,
      ite_false] at hc ⊢
    obtain ⟨a, ha, hda⟩ := List.mem_filterMap.mp hc
    have hlook : getConnectionFromPool (warmUpGo dial addrs none [] false).2.1 a =
        some c := by
      rw [warmUpGo_pool_lookup]
      simp [ha, hda]
    have hmem := mem_values_of_lookup _ a c hlook
    simp only [closeCore]
    exact List.mem_append_left _ hmem

/-- Witness for C6: a single unreachable address whose dial yields a
dead connection. -/
theorem connect_all_unreachable_witness :
    (ConnectWithOpts exDialDead ["a"] 5).result =
      ConnectResult.err GoErr.errNoConnection ∧
    ∀ c ∈ (ConnectWithOpts exDialDead ["a"] 5).opened,
      c ∈ (ConnectWithOpts exDialDead ["a"] 5).closed :=
  connect_all_unreachable exDialDead ["a"] 5 (by decide) (by decide)
    (fun a c h => by
      simp only [exDialDead, Option.some.injEq] at h
      subst h
      rfl)

/-- C7: construction fails with a ConfigError (ErrEmptyAddrs or
ErrWrongCheckTimeout) exactly when the address list is empty or the
check timeout is non-positive; the empty list is checked first (it
wins even when both conditions hold), and in either case the failure
happens before any dial: nothing is opened and nothing is closed. -/
theorem connect_config_error (dial : String → Option Connection)
    (addrs : List String) (t : Int) :
    ((∃ e, (ConnectWithOpts dial addrs t).result = ConnectResult.err e ∧
        isConfigError e = true) ↔ (addrs = [] ∨ t ≤ 0)) ∧
    (addrs = [] →
      (ConnectWithOpts dial addrs t).result = ConnectResult.err GoErr.errEmptyAddrs) ∧
    ((addrs = [] ∨ t ≤ 0) →
      (ConnectWithOpts dial addrs t).opened = [] ∧
      (ConnectWithOpts dial addrs t).closed = []) := by
  by_cases ha : addrs = []
  · subst ha
    simp [ConnectWithOpts, isConfigError]
  · have hlen : ¬(addrs.length = 0) := by simp [List.length_eq_zero, ha]
    by_cases ht : t ≤ 0
    · refine ⟨⟨fun _ => Or.inr ht, fun _ => ?_⟩, fun h => absurd h ha,
        fun _ => ⟨?_, ?_⟩⟩
      · exact ⟨GoErr.errWrongCheckTimeout, by simp [ConnectWithOpts, hlen, ht], rfl⟩
      · simp [ConnectWithOpts, hlen, ht]
      · simp [ConnectWithOpts, hlen, ht]
    · have hnotor : ¬(addrs = [] ∨ t ≤ 0) := by
        rintro (h | h)
        exacts [ha h, ht h]
      refine ⟨⟨?_, fun h => absurd h hnotor⟩, fun h => absurd h ha,
        fun h => absurd h hnotor⟩
      rintro ⟨e, he, hce⟩
      exfalso
      cases halive : (warmUpGo dial addrs none [] false).2.2 with
      | false =>
        simp only [ConnectWithOpts, hlen, ht, halive] at he
        simp only [if_false, ite_false, ite_true, ConnectResult.err.injEq] at he
        rw [← he] at hce
        simp [isConfigError] at hce
      | true =>
        simp only [ConnectWithOpts, hlen, ht, halive] at he
        simp at he

/-- Witness for C7: an empty address list fails with `ErrEmptyAddrs`
before any dial. -/
theorem connect_config_error_witness :
    (ConnectWithOpts exDialNone [] 5).result =
      ConnectResult.err GoErr.errEmptyAddrs ∧
    (ConnectWithOpts exDialNone [] 5).opened = [] ∧
    (ConnectWithOpts exDialNone [] 5).closed = [] :=
  ⟨(connect_config_error exDialNone [] 5).2.1 rfl,
   (connect_config_error exDialNone [] 5).2.2 (Or.inl rfl)⟩

/-- C3 counterexample: with tracked list ["A"], a discovery result
whose first element is the (empty) address-string list `[]` leaves the
pool unchanged instead of making the tracked list equal that list: the
code additionally requires `len(resp[0]) > 0`. -/
theorem refreshTick_empty_first_counterexample :
    refreshTick exDialNone exCM3 [[]] = (exCM3, []) ∧
    exCM3.addrs ≠ ([] : List String) :=
  ⟨rfl, by decide⟩

/-- C3 (amended): a discovery tick whose result's first element is a
*non-empty* list of address strings replaces the tracked list with
exactly that list, installs the dial result for addresses newly
present (the old entry is kept only when the dial fails), leaves
retained addresses untouched, closes and evicts the entries of
addresses no longer present (the connections closed are exactly the
pool entries of dropped tracked addresses), and any other result shape
— an empty result or an empty first element — leaves the tracked list
and pool unchanged and closes nothing. -/
theorem refreshTick_spec (dial : String → Option Connection)
    (cm : ConnectionMulti) (resp : List (List String))
    (hnd : cm.addrs.Nodup) :
    (resp = [] → refreshTick dial cm resp = (cm, [])) ∧
    (∀ rest, resp = [] :: rest → refreshTick dial cm resp = (cm, [])) ∧
    (∀ l rest, resp = l :: rest → l ≠ [] →
      ((refreshTick dial cm resp).1.addrs = l ∧
       (∀ a, a ∈ l → a ∉ cm.addrs →
         getConnectionFromPool (refreshTick dial cm resp).1.pool a =
           (dial a).or (getConnectionFromPool cm.pool a)) ∧
       (∀ a, a ∈ l → a ∈ cm.addrs →
         getConnectionFromPool (refreshTick dial cm resp).1.pool a =
           getConnectionFromPool cm.pool a) ∧
       (∀ a, a ∈ cm.addrs → a ∉ l →
         getConnectionFromPool (refreshTick dial cm resp).1.pool a = none) ∧
       (refreshTick dial cm resp).2 =
         cm.addrs.filterMap (fun v =>
           if v ∈ l then none else getConnectionFromPool cm.pool v))) := by
  refine ⟨fun h => by subst h; rfl, fun rest h => by subst h; rfl, ?_⟩
  intro l rest h hl
  subst h
  have hlpos : 0 < l.length := List.length_pos.mpr hl
  have htick : refreshTick dial cm (l :: rest) =
      ({ cm with
          pool := (clearObsolete l cm.addrs (fillNewConns dial cm.addrs l cm.pool)).1,
          addrs := l },
        (clearObsolete l cm.addrs (fillNewConns dial cm.addrs l cm.pool)).2) := by
    simp [refreshTick, hlpos]
  rw [htick]
  refine ⟨rfl, ?_, ?_, ?_, ?_⟩
  · intro a hal hanot
    rw [getConnectionFromPool_clearObsolete]
    have hnotvict : ¬(a ∈ cm.addrs ∧ indexOf a l < 0) := fun hh => hanot hh.1
    rw [if_neg hnotvict, getConnectionFromPool_fillNewConns]
    have hnew : a ∈ l ∧ indexOf a cm.addrs < 0 :=
      ⟨hal, (indexOf_lt_zero_iff a cm.addrs).mpr hanot⟩
    rw [if_pos hnew]
  · intro a hal hain
    rw [getConnectionFromPool_clearObsolete]
    have hnotvict : ¬(a ∈ cm.addrs ∧ indexOf a l < 0) := by
      rintro ⟨-, hlt⟩
      exact (indexOf_lt_zero_iff a l).mp hlt hal
    rw [if_neg hnotvict, getConnectionFromPool_fillNewConns]
    have hnotnew : ¬(a ∈ l ∧ indexOf a cm.addrs < 0) := by
      rintro ⟨-, hlt⟩
      exact (indexOf_lt_zero_iff a cm.addrs).mp hlt hain
    rw [if_neg hnotnew]
  · intro a hain hanot
    rw [getConnectionFromPool_clearObsolete]
    have hvict : a ∈ cm.addrs ∧ indexOf a l < 0 :=
      ⟨hain, (indexOf_lt_zero_iff a l).mpr hanot⟩
    rw [if_pos hvict]
  · rw [clearObsolete_snd_eq l cm.addrs _ hnd]
    refine List.filterMap_congr ?_
    intro v hv
    by_cases hvl : v ∈ l
    · have : ¬(indexOf v l < 0) := fun hlt => (indexOf_lt_zero_iff v l).mp hlt hvl
      simp [this, hvl]
    · have hlt : indexOf v l < 0 := (indexOf_lt_zero_iff v l).mpr hvl
      rw [if_pos hlt, if_neg hvl, getConnectionFromPool_fillNewConns]
      have : ¬(v ∈ l ∧ indexOf v cm.addrs < 0) := fun hh => hvl hh.1
      rw [if_neg this]

/-- Witness for C3 (amended), the spec's own example: tracked {A,B},
discovery result {B,C}: tracked becomes ["B","C"], "C" gets the dialed
connection, "B" is untouched, "A" is evicted and its connection is the
one closed. -/
theorem refreshTick_spec_witness :
    (refreshTick exDialC exCM4 [["B", "C"]]).1.addrs = ["B", "C"] ∧
    getConnectionFromPool (refreshTick exDialC exCM4 [["B", "C"]]).1.pool "C" =
      (exDialC "C").or (getConnectionFromPool exCM4.pool "C") ∧
    getConnectionFromPool (refreshTick exDialC exCM4 [["B", "C"]]).1.pool "B" =
      getConnectionFromPool exCM4.pool "B" ∧
    getConnectionFromPool (refreshTick exDialC exCM4 [["B", "C"]]).1.pool "A" = none ∧
    (refreshTick exDialC exCM4 [["B", "C"]]).2 =
      exCM4.addrs.filterMap (fun v =>
        if v ∈ ["B", "C"] then none else getConnectionFromPool exCM4.pool v) := by
  have h := (refreshTick_spec exDialC exCM4 [["B", "C"]] (by decide)).2.2
      ["B", "C"] [] rfl (by decide)
  exact ⟨h.1, h.2.1 "C" (by decide) (by decide), h.2.2.1 "B" (by decide) (by decide),
    h.2.2.2.1 "A" (by decide) (by decide), h.2.2.2.2⟩

end TarantoolSpec
